import Mathlib

/-!
# Verification of `roads_mexico_complete.py`

A shallow embedding of the single-file pipeline `src/roads_mexico_complete.py`
(fetch Mexican state boundaries, fetch and clip road networks, classify roads
and render three maps per state), together with theorems settling the frozen
claims about it.

Floating-point arithmetic of the script (numpy `exp`, divisions) is modelled
over `ℝ`; exact decimal literals of the script (`0.02`, `0.1`, `0.05`, `0.9`)
are modelled by the same literals over `ℚ`/`ℝ`, which Lean reads exactly.
Pandas series are modelled as Lean lists; library geometry operations that the
script merely orchestrates (geocoding, buffering, projection, clipping) are
modelled as abstract operations, with the script's own dataflow around them
embedded faithfully.
-/

namespace RoadsMexico

/-! ## Highway classification (source lines 28–36) -/

/-- `highway_order` — the fixed 8-entry road type hierarchy (source lines 28–31). -/
def highway_order : List String :=
  ["motorway", "trunk", "primary", "secondary",
   "tertiary", "unclassified", "residential", "service"]

/-- The `highway` tag of a road segment: in the source a pandas cell holding
either a string or a Python list of strings. -/
inductive HwyTag where
  | str (s : String)
  | tags (l : List String)
deriving DecidableEq, Repr

/-- `hw0 = hw[0] if isinstance(hw, list) else hw` (source line 35).
Python raises `IndexError` on `hw[0]` for an empty list, modelled as `none`. -/
def hw0 : HwyTag → Option String
  | .str s => some s
  | .tags [] => none
  | .tags (t :: _) => some t

/-- `get_hwy_code` (source lines 34–36): index of the (first) tag in
`highway_order`, or `len(highway_order) = 8` when absent.  `none` models the
`IndexError` Python raises on an empty tag list. -/
def get_hwy_code (hw : HwyTag) : Option Nat :=
  (hw0 hw).map fun h =>
    if h ∈ highway_order then highway_order.indexOf h else highway_order.length

/-! ## State table and buffer selection (source lines 39–55, 70) -/

/-- `states` — the fixed table of 32 INEGI codes and state names
(source lines 39–49). -/
def states : List (String × String) :=
  [("01", "Aguascalientes"), ("02", "Baja California"), ("03", "Baja California Sur"),
   ("04", "Campeche"), ("05", "Coahuila"), ("06", "Colima"), ("07", "Chiapas"),
   ("08", "Chihuahua"), ("09", "Mexico City"), ("10", "Durango"), ("11", "Guanajuato"),
   ("12", "Guerrero"), ("13", "Hidalgo"), ("14", "Jalisco"), ("15", "Estado de México"),
   ("16", "Michoacán"), ("17", "Morelos"), ("18", "Nayarit"), ("19", "Nuevo León"),
   ("20", "Oaxaca"), ("21", "Puebla"), ("22", "Querétaro"), ("23", "Quintana Roo"),
   ("24", "San Luis Potosí"), ("25", "Sinaloa"), ("26", "Sonora"), ("27", "Tabasco"),
   ("28", "Tamaulipas"), ("29", "Tlaxcala"), ("30", "Veracruz"),
   ("31", "Yucatán"), ("32", "Zacatecas")]

/-- `BUFFER_DEG = 0.02` (source line 52). -/
def BUFFER_DEG : ℚ := 0.02

/-- `SPECIAL_BUFFER = 0.1` (source line 54). -/
def SPECIAL_BUFFER : ℚ := 0.1

/-- `SPECIAL_STATES = {"Jalisco", "Tabasco"}` (source line 55). -/
def SPECIAL_STATES : List String := ["Jalisco", "Tabasco"]

/-- `buf = SPECIAL_BUFFER if name in SPECIAL_STATES else BUFFER_DEG`
(source line 70). -/
def buf (name : String) : ℚ :=
  if name ∈ SPECIAL_STATES then SPECIAL_BUFFER else BUFFER_DEG

/-! ## Islet reduction (source lines 22–25, 64–67) -/

/-- A polygon part of a boundary, identified by an id and carrying its area
(the only attribute `largest_polygon` inspects). -/
structure Polygon where
  id : Nat
  area : ℚ
deriving DecidableEq, Repr

/-- A boundary geometry: a single polygon, or a shapely `MultiPolygon`
holding a list of parts. -/
inductive BGeom where
  | poly (p : Polygon)
  | multi (parts : List Polygon)
deriving DecidableEq, Repr

/-- Python's `max(items, key=area)` starting from accumulator `p`: the
accumulator is replaced only when a later item's area is strictly greater,
so the first polygon of maximal area wins. -/
def maxAreaFrom (p : Polygon) : List Polygon → Polygon
  | [] => p
  | q :: qs => if p.area < q.area then maxAreaFrom q qs else maxAreaFrom p qs

/-- `largest_polygon` (source lines 22–25): on a `MultiPolygon`, the part of
largest area via `max(geom.geoms, key=lambda g: g.area)`; any other geometry
is returned unchanged.  Python's `max` raises `ValueError` on an empty
sequence, modelled as `none`. -/
def largest_polygon : BGeom → Option BGeom
  | .multi [] => none
  | .multi (p :: ps) => some (.poly (maxAreaFrom p ps))
  | .poly p => some (.poly p)

/-- `clean_geom` (source lines 64–67): islet reduction applied only when the
state name is `"Colima"`. -/
def clean_geom (name : String) (raw_geom : BGeom) : Option BGeom :=
  if name = "Colima" then largest_polygon raw_geom else some raw_geom

/-! ## Clip filter (source lines 80–81) -/

/-- One row of the clipped roads GeoDataFrame: its shapely `geom_type` string
and its `highway` tag. -/
structure RoadRow where
  geom_type : String
  highway : HwyTag
deriving DecidableEq, Repr

/-- Pandas `.str.contains("Line")`: substring test on the `geom_type`. -/
def containsLine (g : String) : Bool :=
  decide ("Line".toList <:+: g.toList)

/-- `roads = roads[roads.geom_type.str.contains("Line")]` (source line 81):
keep only the rows whose geometry type mentions `"Line"`. -/
def dropNonLines (rows : List RoadRow) : List RoadRow :=
  rows.filter fun r => containsLine r.geom_type

/-! ## Width computation (source lines 86–89) -/

/-- `raw_lw = 1 / np.exp(dist / 1e6)` (source line 87), for a single
segment's centroid distance, over `ℝ`. -/
noncomputable def raw_lw (dist : ℝ) : ℝ := 1 / Real.exp (dist / 1e6)

/-- Pandas `Series.min()` over a list of reals (the empty series, which the
script never feeds it, is given the junk value `0`). -/
noncomputable def seriesMin : List ℝ → ℝ
  | [] => 0
  | [x] => x
  | x :: y :: ys => min x (seriesMin (y :: ys))

/-- Pandas `Series.max()` over a list of reals (junk value `0` on the empty
series). -/
noncomputable def seriesMax : List ℝ → ℝ
  | [] => 0
  | [x] => x
  | x :: y :: ys => max x (seriesMax (y :: ys))

/-- `mn = raw_lw.min()` (source line 88), over the state's list of segment
distances. -/
noncomputable def mn (dists : List ℝ) : ℝ := seriesMin (dists.map raw_lw)

/-- `mx = raw_lw.max()` (source line 88). -/
noncomputable def mx (dists : List ℝ) : ℝ := seriesMax (dists.map raw_lw)

/-- `roads['lw'] = 0.05 + (raw_lw - mn) / (mx - mn) * (0.9 - 0.05)`
(source line 89): the width of the segment at distance `d`, given the full
list `dists` of the state's segment distances. -/
noncomputable def lw (dists : List ℝ) (d : ℝ) : ℝ :=
  0.05 + (raw_lw d - mn dists) / (mx dists - mn dists) * (0.9 - 0.05)

/-! ## Safe file names (source lines 97–101, 110, 129, 140) -/

/-- Python `str.lower()` restricted to the alphabet occurring in the state
table: ASCII letters (via `Char.toLower`) and the accented Latin letters,
everything else unchanged. -/
def pyLowerChar (c : Char) : Char :=
  if c = 'Á' then 'á' else if c = 'É' then 'é'
  else if c = 'Í' then 'í' else if c = 'Ó' then 'ó'
  else if c = 'Ú' then 'ú' else if c = 'Ñ' then 'ñ'
  else c.toLower

/-- The chained `.replace` calls of source lines 98–101.  Every pattern and
replacement is a single character and no replacement output is a later
pattern, so the chain acts character-wise as this single map. -/
def replaceChar (c : Char) : Char :=
  if c = ' ' then '_'
  else if c = 'á' then 'a' else if c = 'é' then 'e'
  else if c = 'í' then 'i' else if c = 'ó' then 'o'
  else if c = 'ú' then 'u' else if c = 'ñ' then 'n'
  else c

/-- `safe` (source lines 97–101): lowercase, then replace spaces and
accented characters (character-wise over the string's characters). -/
def safe (name : String) : String :=
  String.mk ((name.toList.map pyLowerChar).map replaceChar)

/-- The three files `fig.savefig` writes for one state
(source lines 110, 129, 140), in program order. -/
def output_files (code name : String) : List String :=
  ["output/basic_" ++ code ++ "_" ++ safe name ++ ".png",
   "output/typemap_" ++ code ++ "_" ++ safe name ++ ".png",
   "output/distmap_" ++ code ++ "_" ++ safe name ++ ".png"]

/-! ## The per-state pipeline (source lines 57–141)

The geometric library calls the script delegates (geocoding, buffering,
projection, clipping, centroid, bounds) are modelled as abstract operations
over abstract geometry `G`, road-collection `R` and point `P` types; the
script's own dataflow between them is embedded line by line. -/

/-- The planar bounding box `boundary_proj.bounds = (x0, y0, x1, y1)`
(source line 92). -/
structure Bounds where
  x0 : ℚ
  y0 : ℚ
  x1 : ℚ
  y1 : ℚ

/-- The external geometry operations the script calls. -/
structure GeoOps (G R P : Type) where
  /-- `ox.geocode_to_gdf(...)` followed by `.geometry.iloc[0]` (lines 60–61). -/
  geocode : String → G
  /-- `largest_polygon` applied to a library geometry (line 65). -/
  largest : G → G
  /-- `geom.buffer(buf)` (line 71). -/
  buffer : G → ℚ → G
  /-- `ox.graph_from_polygon` + `ox.graph_to_gdfs` + `.to_crs(epsg=3857)`
  (lines 74–75). -/
  fetch : G → R
  /-- `gpd.GeoSeries([g], crs="EPSG:4326").to_crs(epsg=3857).iloc[0]`
  (lines 78–79). -/
  project : G → G
  /-- `gpd.clip(roads, boundary)` (line 80). -/
  clip : R → G → R
  /-- `roads[roads.geom_type.str.contains("Line")].copy()` (line 81). -/
  keepLines : R → R
  /-- `.centroid` (line 85). -/
  centroid : G → P
  /-- `.bounds` (line 92). -/
  bounds : G → Bounds

/-- One rendered map: the roads drawn, the geometry whose boundary outline is
drawn, the view limits set, and the file saved. -/
structure RenderedMap (G R : Type) where
  roads : R
  outline : G
  xlim : ℚ × ℚ
  ylim : ℚ × ℚ
  file : String

/-- The observable data of one loop iteration (source lines 57–141). -/
structure StateRun (G R P : Type) where
  raw_geom : G
  clean_geom : G
  fetch_geom : G
  boundary_proj : G
  center : P
  roads : R
  extent : ℚ × ℚ × ℚ × ℚ
  basic : RenderedMap G R
  typemap : RenderedMap G R
  distmap : RenderedMap G R

/-- The body of the loop (source lines 57–141) for one `(code, name)` pair,
with the buffer distance `b` a parameter; the script instantiates
`b = buf name` (see `runState`). -/
def runStateWith {G R P : Type} (ops : GeoOps G R P)
    (code name : String) (b : ℚ) : StateRun G R P :=
  let raw_geom := ops.geocode (name ++ ", Mexico")
  let cg := if name = "Colima" then ops.largest raw_geom else raw_geom
  let fetch_geom := ops.buffer cg b
  let roads0 := ops.fetch fetch_geom
  let boundary_proj := ops.project cg
  let roads := ops.keepLines (ops.clip roads0 boundary_proj)
  let center := ops.centroid boundary_proj
  let bd := ops.bounds boundary_proj
  let dx := 0.05 * (bd.x1 - bd.x0)
  let dy := 0.05 * (bd.y1 - bd.y0)
  let extent := (bd.x0 - dx, bd.x1 + dx, bd.y0 - dy, bd.y1 + dy)
  { raw_geom := raw_geom
    clean_geom := cg
    fetch_geom := fetch_geom
    boundary_proj := boundary_proj
    center := center
    roads := roads
    extent := extent
    basic :=
      { roads := roads, outline := boundary_proj
        xlim := (extent.1, extent.2.1), ylim := (extent.2.2.1, extent.2.2.2)
        file := "output/basic_" ++ code ++ "_" ++ safe name ++ ".png" }
    typemap :=
      { roads := roads, outline := boundary_proj
        xlim := (extent.1, extent.2.1), ylim := (extent.2.2.1, extent.2.2.2)
        file := "output/typemap_" ++ code ++ "_" ++ safe name ++ ".png" }
    distmap :=
      { roads := roads, outline := boundary_proj
        xlim := (extent.1, extent.2.1), ylim := (extent.2.2.1, extent.2.2.2)
        file := "output/distmap_" ++ code ++ "_" ++ safe name ++ ".png" } }

/-- The loop body as the script runs it: buffer distance chosen by `buf`
(source line 70). -/
def runState {G R P : Type} (ops : GeoOps G R P)
    (code name : String) : StateRun G R P :=
  runStateWith ops code name (buf name)

/-! ## Theorems: highway classification -/

/-- The value `get_hwy_code` computes for a present first tag `h` is at most 8,
and equals 8 exactly when `h` is outside the hierarchy. -/
lemma hwy_code_aux (h : String) :
    (if h ∈ highway_order then highway_order.indexOf h else highway_order.length) ≤ 8
    ∧ ((if h ∈ highway_order then highway_order.indexOf h else highway_order.length) = 8
        ↔ h ∉ highway_order) := by
  by_cases hm : h ∈ highway_order
  · rw [if_pos hm]
    have hlt : highway_order.indexOf h < highway_order.length :=
      List.indexOf_lt_length.mpr hm
    have h8 : highway_order.length = 8 := rfl
    rw [h8] at hlt
    exact ⟨by omega, by constructor <;> intro h' <;> [omega; exact absurd hm h']⟩
  · rw [if_neg hm]
    exact ⟨le_refl 8, ⟨fun _ => hm, fun _ => rfl⟩⟩

/-- C2. Highway classification: the classifier takes the highway tag (the
first element when the tag is a list), maps it to its index in the fixed
8-entry hierarchy, and assigns index 8 for any unmapped tag; in particular
`"primary"` maps to 2, `["residential","service"]` maps to 6, and
`"footway"` maps to 8. -/
theorem C2_highway_classification :
    (∀ s : String,
      get_hwy_code (.str s) =
        some (if s ∈ highway_order then highway_order.indexOf s else 8))
    ∧ (∀ (t : String) (rest : List String),
      get_hwy_code (.tags (t :: rest)) =
        some (if t ∈ highway_order then highway_order.indexOf t else 8))
    ∧ get_hwy_code (.str "primary") = some 2
    ∧ get_hwy_code (.tags ["residential", "service"]) = some 6
    ∧ get_hwy_code (.str "footway") = some 8 :=
  ⟨fun _ => rfl, fun _ _ => rfl, by decide, by decide, by decide⟩

/-- C10. For every string tag and every non-empty list of string tags,
`get_hwy_code` returns an index in `{0, …, 8}`, returning 8 exactly when
the (first) tag is not in the hierarchy; on an empty tag list the extraction
of the first element fails (modelled by `none`). -/
theorem C10_classifier_range :
    (∀ s : String, ∃ n, get_hwy_code (.str s) = some n ∧ n ≤ 8
        ∧ (n = 8 ↔ s ∉ highway_order))
    ∧ (∀ (t : String) (rest : List String), ∃ n,
        get_hwy_code (.tags (t :: rest)) = some n ∧ n ≤ 8
        ∧ (n = 8 ↔ t ∉ highway_order))
    ∧ get_hwy_code (.tags []) = none :=
  ⟨fun s => ⟨_, rfl, (hwy_code_aux s).1, (hwy_code_aux s).2⟩,
   fun t _ => ⟨_, rfl, (hwy_code_aux t).1, (hwy_code_aux t).2⟩, rfl⟩

/-! ## Theorems: buffer selection -/

/-- C3. For every state in the fixed 32-state table, the fetch buffer is
0.1° for Jalisco and Tabasco and 0.02° for every other state, and no other
value is ever chosen for any name. -/
theorem C3_buffer_selection :
    (∀ p ∈ states,
      buf p.2 = if p.2 = "Jalisco" ∨ p.2 = "Tabasco" then (0.1 : ℚ) else 0.02)
    ∧ (∀ name : String, buf name = 0.1 ∨ buf name = 0.02) := by
  constructor
  · intro p hp
    fin_cases hp <;> simp [buf, SPECIAL_STATES, SPECIAL_BUFFER, BUFFER_DEG]
  · intro name
    unfold buf SPECIAL_BUFFER BUFFER_DEG
    split
    · exact Or.inl rfl
    · exact Or.inr rfl

/-- Witness for C3 at the concrete table entries Jalisco and Aguascalientes. -/
theorem C3_buffer_selection_witness :
    buf "Jalisco" = 0.1 ∧ buf "Aguascalientes" = 0.02 := by
  have h1 := C3_buffer_selection.1 ("14", "Jalisco") (by decide)
  have h2 := C3_buffer_selection.1 ("01", "Aguascalientes") (by decide)
  rw [if_pos (by decide)] at h1
  rw [if_neg (by decide)] at h2
  exact ⟨h1, h2⟩

/-! ## Theorems: clip filter -/

/-- C5. After the post-clip filter, every surviving row's geometry type
contains `"Line"`; in particular no `"Point"` row survives. -/
theorem C5_post_clip_lines (rows : List RoadRow) (r : RoadRow)
    (hr : r ∈ dropNonLines rows) :
    containsLine r.geom_type = true ∧ r.geom_type ≠ "Point" := by
  have h := List.mem_filter.mp hr
  refine ⟨h.2, fun hp => ?_⟩
  have hc := h.2
  rw [hp] at hc
  exact absurd hc (by decide)

/-- Witness for C5 on a concrete two-row road set with a stray point. -/
theorem C5_post_clip_lines_witness :
    (⟨"LineString", .str "primary"⟩ : RoadRow) ∈
      dropNonLines [⟨"LineString", .str "primary"⟩, ⟨"Point", .str "primary"⟩]
    ∧ containsLine (RoadRow.mk "LineString" (.str "primary")).geom_type = true
    ∧ (RoadRow.mk "LineString" (.str "primary")).geom_type ≠ "Point" := by
  refine ⟨by decide, ?_, ?_⟩
  · exact (C5_post_clip_lines
      [⟨"LineString", .str "primary"⟩, ⟨"Point", .str "primary"⟩] _ (by decide)).1
  · exact (C5_post_clip_lines
      [⟨"LineString", .str "primary"⟩, ⟨"Point", .str "primary"⟩] _ (by decide)).2

/-! ## Theorems: output naming -/

/-- C7. Each state yields exactly three output files with the documented
names, and the safe-name transliteration sends "México" to "mexico",
"Nuevo León" to "nuevo_leon" and "San Luis Potosí" to "san_luis_potosi". -/
theorem C7_output_naming :
    (∀ p ∈ states,
      output_files p.1 p.2 =
        ["output/basic_" ++ p.1 ++ "_" ++ safe p.2 ++ ".png",
         "output/typemap_" ++ p.1 ++ "_" ++ safe p.2 ++ ".png",
         "output/distmap_" ++ p.1 ++ "_" ++ safe p.2 ++ ".png"]
      ∧ (output_files p.1 p.2).length = 3)
    ∧ safe "México" = "mexico"
    ∧ safe "Nuevo León" = "nuevo_leon"
    ∧ safe "San Luis Potosí" = "san_luis_potosi" :=
  ⟨fun _ _ => ⟨rfl, rfl⟩, by decide, by decide, by decide⟩

/-- Witness for C7 at the concrete table entry Nuevo León. -/
theorem C7_output_naming_witness :
    output_files "19" "Nuevo León" =
      ["output/basic_" ++ "19" ++ "_" ++ safe "Nuevo León" ++ ".png",
       "output/typemap_" ++ "19" ++ "_" ++ safe "Nuevo León" ++ ".png",
       "output/distmap_" ++ "19" ++ "_" ++ safe "Nuevo León" ++ ".png"]
    ∧ (output_files "19" "Nuevo León").length = 3 :=
  C7_output_naming.1 ("19", "Nuevo León") (by decide)

/-! ## Theorems: islet reduction -/

/-- `maxAreaFrom p ps` is one of `p :: ps`. -/
lemma maxAreaFrom_mem (p : Polygon) (ps : List Polygon) :
    maxAreaFrom p ps ∈ p :: ps := by
  induction ps generalizing p with
  | nil => exact List.mem_singleton.mpr rfl
  | cons q qs ih =>
    rw [maxAreaFrom]
    split
    · exact List.mem_cons.mpr (Or.inr (ih q))
    · rcases List.mem_cons.mp (ih p) with h | h
      · exact List.mem_cons.mpr (Or.inl h)
      · exact List.mem_cons.mpr (Or.inr (List.mem_cons.mpr (Or.inr h)))

/-- The starting accumulator's area never exceeds the result's area. -/
lemma le_maxAreaFrom_self (p : Polygon) (ps : List Polygon) :
    p.area ≤ (maxAreaFrom p ps).area := by
  induction ps generalizing p with
  | nil => exact le_refl _
  | cons q qs ih =>
    rw [maxAreaFrom]
    split
    · exact le_trans (le_of_lt (by assumption)) (ih q)
    · exact ih p

/-- Every polygon in `p :: ps` has area at most that of `maxAreaFrom p ps`. -/
lemma area_le_maxAreaFrom (p : Polygon) (ps : List Polygon) :
    ∀ r ∈ p :: ps, r.area ≤ (maxAreaFrom p ps).area := by
  induction ps generalizing p with
  | nil =>
    intro r hr
    rw [List.mem_singleton.mp hr, maxAreaFrom]
  | cons q qs ih =>
    intro r hr
    rw [maxAreaFrom]
    rcases List.mem_cons.mp hr with h | h
    · subst h
      split
      · exact le_trans (le_of_lt (by assumption)) (le_maxAreaFrom_self q qs)
      · exact le_maxAreaFrom_self r qs
    · rcases List.mem_cons.mp h with h' | h'
      · subst h'
        split
        · exact le_maxAreaFrom_self r qs
        · exact le_trans (le_of_not_lt (by assumption)) (le_maxAreaFrom_self p qs)
      · split
        · exact ih q r (List.mem_cons.mpr (Or.inr h'))
        · exact ih p r (List.mem_cons.mpr (Or.inr h'))

/-- C4. Islet reduction: for Colima and a (non-empty) multi-polygon raw
boundary, the boundary used downstream is a single part of largest area
among the parts; every other state's raw boundary passes through unchanged. -/
theorem C4_islet_reduction :
    (∀ (p : Polygon) (ps : List Polygon), ∃ q,
      clean_geom "Colima" (.multi (p :: ps)) = some (.poly q)
      ∧ q ∈ p :: ps ∧ ∀ r ∈ p :: ps, r.area ≤ q.area)
    ∧ (∀ (name : String) (g : BGeom),
        name ≠ "Colima" → clean_geom name g = some g) := by
  constructor
  · intro p ps
    exact ⟨maxAreaFrom p ps, rfl, maxAreaFrom_mem p ps, area_le_maxAreaFrom p ps⟩
  · intro name g hname
    rw [clean_geom, if_neg hname]

/-- Witness for C4: a two-part multi-polygon for Colima, and a multi-polygon
passing through unchanged for Jalisco. -/
theorem C4_islet_reduction_witness :
    (∃ q, clean_geom "Colima" (.multi [⟨0, 5⟩, ⟨1, 9⟩]) = some (.poly q)
      ∧ q ∈ [(⟨0, 5⟩ : Polygon), ⟨1, 9⟩]
      ∧ ∀ r ∈ [(⟨0, 5⟩ : Polygon), ⟨1, 9⟩], r.area ≤ q.area)
    ∧ clean_geom "Jalisco" (.multi [⟨0, 5⟩, ⟨1, 9⟩]) =
        some (.multi [⟨0, 5⟩, ⟨1, 9⟩]) :=
  ⟨C4_islet_reduction.1 ⟨0, 5⟩ [⟨1, 9⟩],
   C4_islet_reduction.2 "Jalisco" (.multi [⟨0, 5⟩, ⟨1, 9⟩]) (by decide)⟩

/-! ## Theorems: width rescaling -/

/-- `1 / exp(d / 1e6)` is `exp(-(d / 1e6))`. -/
lemma raw_lw_eq_exp_neg (d : ℝ) : raw_lw d = Real.exp (-(d / 1e6)) := by
  rw [raw_lw, Real.exp_neg, one_div]

/-- The raw width value is positive. -/
lemma raw_lw_pos (d : ℝ) : 0 < raw_lw d := by
  rw [raw_lw_eq_exp_neg]
  exact Real.exp_pos _

/-- The raw width value is antitone in the distance. -/
lemma raw_lw_anti {a b : ℝ} (h : a ≤ b) : raw_lw b ≤ raw_lw a := by
  rw [raw_lw_eq_exp_neg, raw_lw_eq_exp_neg]
  exact Real.exp_le_exp.mpr (neg_le_neg (by linarith))

/-- The raw width value is strictly antitone in the distance. -/
lemma raw_lw_strict_anti {a b : ℝ} (h : a < b) : raw_lw b < raw_lw a := by
  rw [raw_lw_eq_exp_neg, raw_lw_eq_exp_neg]
  exact Real.exp_lt_exp.mpr (neg_lt_neg (by linarith))

/-- `seriesMin` bounds every member from below. -/
lemma seriesMin_le {l : List ℝ} {x : ℝ} (hx : x ∈ l) : seriesMin l ≤ x := by
  induction l with
  | nil => cases hx
  | cons a t ih =>
    cases t with
    | nil =>
      rw [List.mem_singleton.mp hx, seriesMin]
    | cons b ts =>
      rw [seriesMin]
      rcases List.mem_cons.mp hx with h | h
      · exact h ▸ min_le_left _ _
      · exact le_trans (min_le_right _ _) (ih h)

/-- `seriesMax` bounds every member from above. -/
lemma le_seriesMax {l : List ℝ} {x : ℝ} (hx : x ∈ l) : x ≤ seriesMax l := by
  induction l with
  | nil => cases hx
  | cons a t ih =>
    cases t with
    | nil =>
      rw [List.mem_singleton.mp hx, seriesMax]
    | cons b ts =>
      rw [seriesMax]
      rcases List.mem_cons.mp hx with h | h
      · exact h ▸ le_max_left _ _
      · exact le_trans (ih h) (le_max_right _ _)

/-- The minimum of a non-empty series is attained. -/
lemma seriesMin_mem : ∀ {l : List ℝ}, l ≠ [] → seriesMin l ∈ l := by
  intro l
  induction l with
  | nil => intro h; exact absurd rfl h
  | cons a t ih =>
    intro _
    cases t with
    | nil => rw [seriesMin]; exact List.mem_singleton.mpr rfl
    | cons b ts =>
      rw [seriesMin]
      rcases le_total a (seriesMin (b :: ts)) with h | h
      · rw [min_eq_left h]; exact List.mem_cons_self _ _
      · rw [min_eq_right h]
        exact List.mem_cons.mpr (Or.inr (ih (List.cons_ne_nil b ts)))

/-- The maximum of a non-empty series is attained. -/
lemma seriesMax_mem : ∀ {l : List ℝ}, l ≠ [] → seriesMax l ∈ l := by
  intro l
  induction l with
  | nil => intro h; exact absurd rfl h
  | cons a t ih =>
    intro _
    cases t with
    | nil => rw [seriesMax]; exact List.mem_singleton.mpr rfl
    | cons b ts =>
      rw [seriesMax]
      rcases le_total a (seriesMax (b :: ts)) with h | h
      · rw [max_eq_right h]
        exact List.mem_cons.mpr (Or.inr (ih (List.cons_ne_nil b ts)))
      · rw [max_eq_left h]; exact List.mem_cons_self _ _

/-- Mapping an antitone function over a series turns its minimum into the
maximum of the images. -/
lemma seriesMax_map_raw_lw :
    ∀ {l : List ℝ}, l ≠ [] → seriesMax (l.map raw_lw) = raw_lw (seriesMin l) := by
  intro l
  induction l with
  | nil => intro h; exact absurd rfl h
  | cons a t ih =>
    intro _
    cases t with
    | nil => rw [List.map, List.map, seriesMax, seriesMin]
    | cons b ts =>
      have hmap : (b :: ts).map raw_lw = raw_lw b :: ts.map raw_lw := rfl
      rw [List.map_cons, hmap, seriesMax, ← hmap, ih (List.cons_ne_nil b ts),
        seriesMin]
      rcases le_total a (seriesMin (b :: ts)) with h | h
      · rw [min_eq_left h, max_eq_left (raw_lw_anti h)]
      · rw [min_eq_right h, max_eq_right (raw_lw_anti h)]

/-- Mapping an antitone function over a series turns its maximum into the
minimum of the images. -/
lemma seriesMin_map_raw_lw :
    ∀ {l : List ℝ}, l ≠ [] → seriesMin (l.map raw_lw) = raw_lw (seriesMax l) := by
  intro l
  induction l with
  | nil => intro h; exact absurd rfl h
  | cons a t ih =>
    intro _
    cases t with
    | nil => rw [List.map, List.map, seriesMin, seriesMax]
    | cons b ts =>
      have hmap : (b :: ts).map raw_lw = raw_lw b :: ts.map raw_lw := rfl
      rw [List.map_cons, hmap, seriesMin, ← hmap, ih (List.cons_ne_nil b ts),
        seriesMax]
      rcases le_total a (seriesMax (b :: ts)) with h | h
      · rw [max_eq_right h, min_eq_right (raw_lw_anti h)]
      · rw [max_eq_left h, min_eq_left (raw_lw_anti h)]

/-- `mn` bounds the raw value of every listed distance from below. -/
lemma mn_le_raw {l : List ℝ} {d : ℝ} (hd : d ∈ l) : mn l ≤ raw_lw d :=
  seriesMin_le (List.mem_map_of_mem raw_lw hd)

/-- `mx` bounds the raw value of every listed distance from above. -/
lemma raw_le_mx {l : List ℝ} {d : ℝ} (hd : d ∈ l) : raw_lw d ≤ mx l :=
  le_seriesMax (List.mem_map_of_mem raw_lw hd)

/-- Two distinct distances in the list force `mn < mx`. -/
lemma mn_lt_mx {l : List ℝ} {a b : ℝ}
    (ha : a ∈ l) (hb : b ∈ l) (hab : a ≠ b) : mn l < mx l := by
  rcases lt_or_gt_of_ne hab with h | h
  · exact lt_of_le_of_lt (mn_le_raw hb)
      (lt_of_lt_of_le (raw_lw_strict_anti h) (raw_le_mx ha))
  · exact lt_of_le_of_lt (mn_le_raw ha)
      (lt_of_lt_of_le (raw_lw_strict_anti h) (raw_le_mx hb))

/-- C1. Width rescaling: with at least two distinct centroid distances in a
state's segment list, every width follows the formula
`0.05 + (exp(-d/1e6) - mn)/(mx - mn) * (0.9 - 0.05)`; the minimum-distance
segment gets width 0.9, the maximum-distance segment gets width 0.05, all
listed segments' widths lie in `[0.05, 0.9]`, and width is antitone in
distance. -/
theorem C1_width_rescaling (l : List ℝ) (a b : ℝ)
    (ha : a ∈ l) (hb : b ∈ l) (hab : a ≠ b) :
    (∀ d : ℝ, lw l d =
      0.05 + (Real.exp (-(d / 1e6)) - mn l) / (mx l - mn l) * (0.9 - 0.05))
    ∧ lw l (seriesMin l) = 0.9
    ∧ lw l (seriesMax l) = 0.05
    ∧ (∀ d ∈ l, 0.05 ≤ lw l d ∧ lw l d ≤ 0.9)
    ∧ (∀ d₁ d₂ : ℝ, d₁ ≤ d₂ → lw l d₂ ≤ lw l d₁) := by
  have hne : l ≠ [] := List.ne_nil_of_mem ha
  have hlt : mn l < mx l := mn_lt_mx ha hb hab
  have hpos : 0 < mx l - mn l := sub_pos.mpr hlt
  refine ⟨fun d => ?_, ?_, ?_, fun d hd => ?_, fun d₁ d₂ h => ?_⟩
  · rw [lw, raw_lw_eq_exp_neg]
  · rw [lw, show raw_lw (seriesMin l) = mx l from (seriesMax_map_raw_lw hne).symm,
      div_self (ne_of_gt hpos)]
    norm_num
  · rw [lw, show raw_lw (seriesMax l) = mn l from (seriesMin_map_raw_lw hne).symm,
      sub_self, zero_div]
    norm_num
  · have h1 : 0 ≤ (raw_lw d - mn l) / (mx l - mn l) :=
      div_nonneg (sub_nonneg.mpr (mn_le_raw hd)) (le_of_lt hpos)
    have h2 : (raw_lw d - mn l) / (mx l - mn l) ≤ 1 :=
      (div_le_one hpos).mpr (sub_le_sub_right (raw_le_mx hd) _)
    rw [lw]
    constructor <;> nlinarith
  · rw [lw, lw]
    have hnum : raw_lw d₂ - mn l ≤ raw_lw d₁ - mn l :=
      sub_le_sub_right (raw_lw_anti h) _
    have hdiv : (raw_lw d₂ - mn l) / (mx l - mn l) ≤
        (raw_lw d₁ - mn l) / (mx l - mn l) :=
      (div_le_div_iff_of_pos_right hpos).mpr hnum
    nlinarith

/-- Witness for C1 on the concrete distance list `[0, 1]`. -/
theorem C1_width_rescaling_witness :
    lw [(0 : ℝ), 1] (seriesMin [(0 : ℝ), 1]) = 0.9
    ∧ lw [(0 : ℝ), 1] (seriesMax [(0 : ℝ), 1]) = 0.05
    ∧ ∀ d ∈ [(0 : ℝ), 1], 0.05 ≤ lw [(0 : ℝ), 1] d ∧ lw [(0 : ℝ), 1] d ≤ 0.9 := by
  have h := C1_width_rescaling [(0 : ℝ), 1] 0 1 (by simp) (by simp) (by norm_num)
  exact ⟨h.2.1, h.2.2.1, h.2.2.2.1⟩

/-- C6. When every segment distance is identical, the minimum and maximum of
the raw width values coincide, so the rescale's divisor `mx - mn` is zero
(the script has no guard for this). -/
theorem C6_divisor_zero (l : List ℝ) (hne : l ≠ [])
    (hall : ∀ a ∈ l, ∀ b ∈ l, a = b) :
    mn l = mx l ∧ mx l - mn l = 0 := by
  have h1 : mn l = raw_lw (seriesMax l) := seriesMin_map_raw_lw hne
  have h2 : mx l = raw_lw (seriesMin l) := seriesMax_map_raw_lw hne
  have h3 : seriesMax l = seriesMin l :=
    hall _ (seriesMax_mem hne) _ (seriesMin_mem hne)
  have h4 : mn l = mx l := by rw [h1, h2, h3]
  exact ⟨h4, by rw [h4, sub_self]⟩

/-- Witness for C6 on the concrete constant distance list `[2, 2]`. -/
theorem C6_divisor_zero_witness :
    mn [(2 : ℝ), 2] = mx [(2 : ℝ), 2] ∧ mx [(2 : ℝ), 2] - mn [(2 : ℝ), 2] = 0 := by
  refine C6_divisor_zero [(2 : ℝ), 2] (by simp) ?_
  intro a ha b hb
  rcases List.mem_cons.mp ha with h | h <;>
    rcases List.mem_cons.mp hb with h' | h' <;>
      simp_all

/-! ## Theorems: pipeline dataflow -/

/-- C8. Buffer scope: in the loop body, the buffered geometry is exactly the
argument of the road fetch and appears nowhere else — the clip boundary, the
centroid, the plot extent and every map's rendered outline are computed from
the projection of the unbuffered (for Colima, islet-reduced) boundary, and
are therefore identical across different buffer distances; and the script
instantiates the buffer distance by `buf`. -/
theorem C8_buffer_scope {G R P : Type} (ops : GeoOps G R P)
    (code name : String) (b b' : ℚ) :
    ((runStateWith ops code name b).fetch_geom =
        ops.buffer (runStateWith ops code name b).clean_geom b
      ∧ (runStateWith ops code name b).clean_geom =
          (if name = "Colima"
            then ops.largest (ops.geocode (name ++ ", Mexico"))
            else ops.geocode (name ++ ", Mexico"))
      ∧ (runStateWith ops code name b).boundary_proj =
          ops.project (runStateWith ops code name b).clean_geom
      ∧ (runStateWith ops code name b).roads =
          ops.keepLines (ops.clip
            (ops.fetch (runStateWith ops code name b).fetch_geom)
            (runStateWith ops code name b).boundary_proj)
      ∧ (runStateWith ops code name b).center =
          ops.centroid (runStateWith ops code name b).boundary_proj
      ∧ (runStateWith ops code name b).basic.outline =
          (runStateWith ops code name b).boundary_proj
      ∧ (runStateWith ops code name b).typemap.outline =
          (runStateWith ops code name b).boundary_proj
      ∧ (runStateWith ops code name b).distmap.outline =
          (runStateWith ops code name b).boundary_proj)
    ∧ ((runStateWith ops code name b).boundary_proj =
          (runStateWith ops code name b').boundary_proj
      ∧ (runStateWith ops code name b).center =
          (runStateWith ops code name b').center
      ∧ (runStateWith ops code name b).extent =
          (runStateWith ops code name b').extent
      ∧ (runStateWith ops code name b).basic.outline =
          (runStateWith ops code name b').basic.outline
      ∧ (runStateWith ops code name b).typemap.outline =
          (runStateWith ops code name b').typemap.outline
      ∧ (runStateWith ops code name b).distmap.outline =
          (runStateWith ops code name b').distmap.outline)
    ∧ runState ops code name = runStateWith ops code name (buf name) :=
  ⟨⟨rfl, rfl, rfl, rfl, rfl, rfl, rfl, rfl⟩,
   ⟨rfl, rfl, rfl, rfl, rfl, rfl⟩, rfl⟩

/-- C9. Plot extent: each of the three rendered maps has view limits equal to
the projected boundary's bounding box expanded on every side by 5% of the
corresponding dimension. -/
theorem C9_plot_extent {G R P : Type} (ops : GeoOps G R P)
    (code name : String) (b : ℚ) :
    ((runStateWith ops code name b).basic.xlim =
        ((ops.bounds (runStateWith ops code name b).boundary_proj).x0 -
          0.05 * ((ops.bounds (runStateWith ops code name b).boundary_proj).x1 -
            (ops.bounds (runStateWith ops code name b).boundary_proj).x0),
         (ops.bounds (runStateWith ops code name b).boundary_proj).x1 +
          0.05 * ((ops.bounds (runStateWith ops code name b).boundary_proj).x1 -
            (ops.bounds (runStateWith ops code name b).boundary_proj).x0))
      ∧ (runStateWith ops code name b).basic.ylim =
        ((ops.bounds (runStateWith ops code name b).boundary_proj).y0 -
          0.05 * ((ops.bounds (runStateWith ops code name b).boundary_proj).y1 -
            (ops.bounds (runStateWith ops code name b).boundary_proj).y0),
         (ops.bounds (runStateWith ops code name b).boundary_proj).y1 +
          0.05 * ((ops.bounds (runStateWith ops code name b).boundary_proj).y1 -
            (ops.bounds (runStateWith ops code name b).boundary_proj).y0)))
    ∧ (runStateWith ops code name b).typemap.xlim =
        (runStateWith ops code name b).basic.xlim
    ∧ (runStateWith ops code name b).typemap.ylim =
        (runStateWith ops code name b).basic.ylim
    ∧ (runStateWith ops code name b).distmap.xlim =
        (runStateWith ops code name b).basic.xlim
    ∧ (runStateWith ops code name b).distmap.ylim =
        (runStateWith ops code name b).basic.ylim :=
  ⟨⟨rfl, rfl⟩, rfl, rfl, rfl, rfl⟩

end RoadsMexico
